import Mathlib

/-!
Shallow embedding of the tacheteo pipeline: `00_fetch.py` (the Collector,
class `TACScraper`) and `01_parse.py` (the Transformer, class
`BibTeXConverter`).  HTML parsing, HTTP fetching and the external
text-generation call are external capabilities and appear as oracle
parameters; everything else is translated from the source.
-/

namespace TAC

/-- A scraped paper, as built by `TACScraper.extract_paper_info`. -/
structure Record where
  url : String
  volume_id : String
  paper_id : String
  raw_text : String
deriving DecidableEq

/-- Char-list version of `str.startswith`: the first argument is the pattern. -/
def listStarts : List Char → List Char → Bool
  | [], _ => true
  | _ :: _, [] => false
  | p :: ps, c :: cs => p == c && listStarts ps cs

/-- `s.startswith(p)` on strings. -/
def strStarts (p s : String) : Bool := listStarts p.toList s.toList

/-- `s.endswith(p)` on strings. -/
def strEnds (p s : String) : Bool := listStarts p.toList.reverse s.toList.reverse

/-- `TACScraper.extract_paper_links`: anchors are `(href, stripped text)`
pairs as produced by the external HTML parser for `soup.find_all("a")`; the
filter keeps hrefs that start with `"volumes"`, end with `"abs.html"` and
whose anchor text is `"abstract"`; the final `list(set(...))` is modelled by
`List.dedup`. -/
def extract_paper_links (anchors : List (String × String)) : List String :=
  (anchors.filterMap fun a =>
    if strStarts "volumes" a.1 && strEnds "abs.html" a.1 && a.2 == "abstract"
    then some a.1 else none).dedup

/-- Maximal leading run of decimal digits together with the remainder
(the `\d+` of the regex, greedy). -/
def takeDigits : List Char → List Char × List Char
  | [] => ([], [])
  | c :: cs =>
    if c.isDigit then
      let r := takeDigits cs
      (c :: r.1, r.2)
    else ([], c :: cs)

/-- The literal characters `"volumes/"`. -/
def volumesMarker : List Char := ['v', 'o', 'l', 'u', 'm', 'e', 's', '/']

/-- Try to match the regex `volumes/(\d+)/(\d+)/([^/]+)` at the head of the
char list, returning groups 1 and 2.  A greedy maximal digit run followed by a
mandatory `'/'` is exact for `(\d+)/` since backtracking into the run can never
expose a `'/'`. -/
def matchShapeAt (cs : List Char) : Option (String × String) :=
  if listStarts volumesMarker cs then
    match takeDigits (cs.drop 8) with
    | (d1, '/' :: r2) =>
      if d1 = [] then none
      else
        match takeDigits r2 with
        | (d2, '/' :: c :: _) =>
          if d2 = [] then none
          else if c = '/' then none
          else some (d1.asString, d2.asString)
        | _ => none
    | _ => none
  else none

/-- `re.search(r"volumes/(\d+)/(\d+)/([^/]+)", url)`: scan left to right for
the first position where the pattern matches. -/
def searchVolPaper : List Char → Option (String × String)
  | [] => none
  | c :: cs =>
    match matchShapeAt (c :: cs) with
    | some r => some r
    | none => searchVolPaper cs

/-- `TACScraper.extract_paper_info`; `getText` stands for the external
`BeautifulSoup(html).get_text()`.  `volume_id` and `paper_id` default to `""`
when the regex does not match anywhere in the URL. -/
def extract_paper_info (getText : String → String) (url html : String) : Record :=
  let vp := (searchVolPaper url.toList).getD ("", "")
  ⟨url, vp.1, vp.2, getText html⟩

/-- Python list slicing `xs[:n]`, including negative `n`. -/
def pySlice (xs : List α) (n : Int) : List α :=
  if 0 ≤ n then xs.take n.toNat else xs.take (xs.length - n.natAbs)

/-- `if limit: xs = xs[:limit]` — Python truthiness: both `None` and `0`
skip the truncation. -/
def pyTruncate (limit : Option Int) (xs : List α) : List α :=
  match limit with
  | none => xs
  | some n => if n = 0 then xs else pySlice xs n

/-- The Collector's external world: `base_url`, the listing page (given as
the anchor list the HTML parser would produce, `none` when `get_page` fails
on the base URL), detail-page fetch outcomes keyed by absolute URL, text
extraction, and URL resolution (`urllib.parse.urljoin`). -/
structure Env where
  base_url : String
  listing : Option (List (String × String))
  fetchDetail : String → Option String
  getText : String → String
  join : String → String → String

/-- Result of `TACScraper.scrape_all_papers`: the new records (`self.papers`),
the skip counter, and the number of detail pages fetched (i.e. `get_page`
calls for detail URLs). -/
structure ScrapeOutcome where
  papers : List Record
  skipped : Nat
  fetched : Nat
deriving DecidableEq

/-- The per-link loop of `TACScraper.scrape_all_papers`: resolve the href,
skip it if the absolute URL is in the known set loaded at startup (the set is
never updated inside the loop), otherwise fetch the page (counted) and on
success extract a `Record`. -/
def scrapeLinks (env : Env) (existing : List String) : List String → ScrapeOutcome
  | [] => ⟨[], 0, 0⟩
  | l :: ls =>
    if env.join env.base_url l ∈ existing then
      let o := scrapeLinks env existing ls
      ⟨o.papers, o.skipped + 1, o.fetched⟩
    else
      match env.fetchDetail (env.join env.base_url l) with
      | some html =>
        let o := scrapeLinks env existing ls
        ⟨extract_paper_info env.getText (env.join env.base_url l) html :: o.papers,
          o.skipped, o.fetched + 1⟩
      | none =>
        let o := scrapeLinks env existing ls
        ⟨o.papers, o.skipped, o.fetched + 1⟩

/-- The deduplicated, limit-truncated candidate list of one run. -/
def candidate_links (env : Env) (limit : Option Int) : List String :=
  match env.listing with
  | none => []
  | some anchors => pyTruncate limit (extract_paper_links anchors)

/-- `TACScraper.scrape_all_papers`: an early return with no records when the
listing page cannot be fetched, otherwise the loop over the candidates. -/
def scrape_all_papers (env : Env) (existing : List String) (limit : Option Int) :
    ScrapeOutcome :=
  match env.listing with
  | none => ⟨[], 0, 0⟩
  | some _ => scrapeLinks env existing (candidate_links env limit)

/-- Parsed content of the collection file: `none` (file absent or unparsable)
is read as the empty list, as in the `try/except` blocks of
`load_existing_papers` and `save_to_json`. -/
def parseFile (file : Option (List Record)) : List Record := file.getD []

/-- `TACScraper.load_existing_papers`: the known-URL set (membership in a
list of the parsed records' `url` fields). -/
def load_existing_papers (file : Option (List Record)) : List String :=
  (parseFile file).map Record.url

/-- `TACScraper.save_to_json`: re-read the file permissively and write back
the old records followed by the new ones. -/
def save_to_json (file : Option (List Record)) (new : List Record) :
    Option (List Record) :=
  some (parseFile file ++ new)

/-- `TACScraper.run` over one file state: load the known URLs, scrape, save;
returns the new file state and the newly scraped records (`self.papers`). -/
def runCollector (env : Env) (file : Option (List Record)) (limit : Option Int) :
    Option (List Record) × List Record :=
  let existing := load_existing_papers file
  let o := scrape_all_papers env existing limit
  (save_to_json file o.papers, o.papers)

/-- `max_retries = 3` in `TACScraper.get_page`. -/
def max_retries : Nat := 3

/-- The fixed per-attempt timeout (seconds) passed to `session.get`. -/
def requestTimeout : Nat := 30

/-- Outcome of `get_page`: the returned value (`None` on exhaustion), the
backoff sleeps performed (seconds, in order) and the timeout budget of each
attempt actually made. -/
structure FetchResult (α : Type) where
  result : Option α
  sleeps : List Nat
  timeouts : List Nat
deriving DecidableEq

/-- The retry loop of `get_page` (`for attempt in range(max_retries)`), with
`fuel` the number of iterations left; `oracle i` is the outcome of the i-th
HTTP attempt.  On a failed attempt that is not the last, `time.sleep(2**attempt)`
runs and the loop continues. -/
def getPageLoop (oracle : Nat → Option α) : Nat → Nat → FetchResult α
  | _, 0 => ⟨none, [], []⟩
  | attempt, fuel + 1 =>
    match oracle attempt with
    | some r => ⟨some r, [], [requestTimeout]⟩
    | none =>
      if attempt = max_retries - 1 then ⟨none, [], [requestTimeout]⟩
      else
        let rest := getPageLoop oracle (attempt + 1) fuel
        ⟨rest.result, 2 ^ attempt :: rest.sleeps, requestTimeout :: rest.timeouts⟩

/-- `TACScraper.get_page`. -/
def get_page (oracle : Nat → Option α) : FetchResult α :=
  getPageLoop oracle 0 max_retries

/-- The fallback f-string of `BibTeXConverter.convert_to_bibtex`. -/
def fallback_entry (r : Record) : String :=
  "@article\x7b" ++ r.volume_id ++ "_" ++ r.paper_id ++
  ",\n  title = \x7bPaper from TAC Volume " ++ r.volume_id ++ ", Number " ++
  r.paper_id ++
  "\x7d,\n  journal = \x7bTheory and Applications of Categories\x7d,\n  volume = \x7b" ++
  r.volume_id ++ "\x7d,\n  number = \x7b" ++ r.paper_id ++
  "\x7d,\n  year = \x7b[n.d.]\x7d,\n  url = \x7b" ++ r.url ++ "\x7d\n\x7d"

/-- `BibTeXConverter.convert_to_bibtex`: `api` is the external model call,
with `none` standing for any exception raised inside the `try` block; on
failure the deterministic fallback entry is returned, on success the stripped
completion text. -/
def convert_to_bibtex (api : Record → Option String) (r : Record) : String :=
  match api r with
  | some s => s.trim
  | none => fallback_entry r

/-- `BibTeXConverter.process_papers`: truncate by Python truthiness, then
convert every record in order. -/
def process_papers (api : Record → Option String) (papers : List Record)
    (limit : Option Int) : List String :=
  (pyTruncate limit papers).map (convert_to_bibtex api)

/-- Split a char list on `'/'` into path segments. -/
def splitSeg : List Char → List (List Char)
  | [] => [[]]
  | '/' :: cs => [] :: splitSeg cs
  | c :: cs =>
    match splitSeg cs with
    | s :: ss => (c :: s) :: ss
    | [] => [[c]]

/-- RFC 3986 `remove_dot_segments` on a relative path, accumulator style
(the accumulator holds already-output segments, most recent first). -/
def removeDots (acc : List (List Char)) : List (List Char) → List (List Char)
  | [] => acc.reverse
  | seg :: rest =>
    if seg = ['.'] then removeDots acc rest
    else if seg = ['.', '.'] then removeDots acc.tail rest
    else removeDots (seg :: acc) rest

/-- Re-join path segments with `'/'`. -/
def joinSegs : List (List Char) → List Char
  | [] => []
  | [s] => s
  | s :: ss => s ++ '/' :: joinSegs ss

/-- Modelled from the spec: the Collector resolves each candidate link to an
absolute URL (`urllib.parse.urljoin`, which is not part of this repository).
For a base URL ending in `'/'` and a relative path reference, the RFC 3986
merge appends the reference to the base and removes dot segments, so distinct
hrefs can resolve to the same absolute URL (spec section 9: "the same paper
... reachable via two different link paths"). -/
def urljoinModel (base rel : String) : String :=
  base ++ (joinSegs (removeDots [] (splitSeg rel.toList))).asString

/-- Spec wording for the link filter: the href "lies under a
`volumes/<int>/<int>/...` path shape" — `"volumes/"`, a nonempty integer
segment, `'/'`, a nonempty integer segment, `'/'`, and a trailing rest.
Spec-side definition, to be compared with the code's filter. -/
def specVolumesShape (href : String) : Bool :=
  match href.toList with
  | 'v' :: 'o' :: 'l' :: 'u' :: 'm' :: 'e' :: 's' :: '/' :: rest =>
    match takeDigits rest with
    | (d1, '/' :: r2) =>
      if d1 = [] then false
      else
        match takeDigits r2 with
        | (d2, '/' :: _) => !d2.isEmpty
        | _ => false
    | _ => false
  | _ => false

/-- Spec wording for record extraction: the URL contains a
`volumes/<int>/<int>/<segment>` section — the `"volumes/"` marker, a nonempty
digit run, `'/'`, a nonempty digit run, `'/'`, and at least one further
non-`'/'` character. -/
def shapeIn (s : List Char) : Prop :=
  ∃ pre d1 d2 c post,
    s = pre ++ volumesMarker ++ d1 ++ '/' :: (d2 ++ '/' :: c :: post) ∧
    d1 ≠ [] ∧ d2 ≠ [] ∧ (∀ x ∈ d1, x.isDigit = true) ∧
    (∀ x ∈ d2, x.isDigit = true) ∧ c ≠ '/'

/-! Concrete fixtures used to instantiate the theorems below. -/

/-- A one-link environment; after one run its only candidate is collected. -/
def envKnown : Env :=
  { base_url := "http://b/"
    listing := some [("volumes/1/2/x-abs.html", "abstract")]
    fetchDetail := fun _ => some "h"
    getText := fun s => s
    join := fun b l => b ++ l }

/-- An environment whose listing holds two distinct hrefs that resolve to the
same absolute URL under dot-segment removal. -/
def envAlias : Env :=
  { base_url := "http://www.tac.mta.ca/tac/"
    listing := some
      [("volumes/7/3/a-abs.html", "abstract"), ("volumes/7/./3/a-abs.html", "abstract")]
    fetchDetail := fun _ => some "p"
    getText := fun s => s
    join := urljoinModel }

/-- A two-link environment with plain string-append URL resolution. -/
def envPlain : Env :=
  { base_url := "http://b/"
    listing := some
      [("volumes/1/2/x-abs.html", "abstract"), ("volumes/1/3/y-abs.html", "abstract")]
    fetchDetail := fun _ => some "h"
    getText := fun s => s
    join := fun b l => b ++ l }

/-- An environment in which fetching the listing page fails. -/
def envDown : Env :=
  { base_url := "http://b/"
    listing := none
    fetchDetail := fun _ => some "h"
    getText := fun s => s
    join := fun b l => b ++ l }

/-- Fifty distinct candidate anchors, all matching the link filter. -/
def anchors50 : List (String × String) :=
  (List.range 50).map fun i =>
    ("volumes/1/" ++ toString i ++ "/x-abs.html", "abstract")

/-- An environment whose listing yields fifty fresh candidates. -/
def env50 : Env :=
  { base_url := "http://b/"
    listing := some anchors50
    fetchDetail := fun _ => some "h"
    getText := fun s => s
    join := fun b l => b ++ l }

/-- An attempt oracle that fails every HTTP attempt. -/
def oracleAllFail : Nat → Option Nat := fun _ => none

/-- An attempt oracle that fails twice, then succeeds on the third attempt. -/
def oracleThird : Nat → Option Nat := fun i => if i = 2 then some 7 else none

/-- A text-generation call that always fails. -/
def apiFail : Record → Option String := fun _ => none

/-- A record with known identifiers. -/
def sampleRecord : Record :=
  ⟨"http://www.tac.mta.ca/tac/volumes/7/3/7-03abs.html", "7", "3", "raw"⟩

/-! Theorems. -/

/-- C9: permissive load — when the collection file is absent or malformed
(modelled by the `none` file state, which is exactly what the caught
`FileNotFoundError`/`JSONDecodeError` cases produce), `load_existing_papers`
yields the empty known-URL set, the save-time re-read treats the file as an
empty sequence, and a whole Collector run behaves exactly as on an empty
file; all operations are total, so no error reaches the caller. -/
theorem permissive_load (new : List Record) (env : Env) (limit : Option Int) :
    load_existing_papers none = [] ∧
    save_to_json none new = some new ∧
    runCollector env none limit = runCollector env (some []) limit := by
  exact ⟨rfl, by simp [save_to_json, parseFile], rfl⟩

/-- C10: a record-count limit of 0 is falsy in Python (`if limit:`), so both
the Collector (`scrape_all_papers`) and the Transformer (`process_papers`)
treat limit 0 exactly as no limit and truncate nothing. -/
theorem zero_limit_means_no_limit (env : Env) (file : Option (List Record))
    (api : Record → Option String) (papers : List Record) :
    runCollector env file (some 0) = runCollector env file none ∧
    process_papers api papers (some 0) = process_papers api papers none := by
  constructor
  · simp [runCollector, scrape_all_papers, candidate_links, pyTruncate]
  · simp [process_papers, pyTruncate]

/-- C3: listing-page failure atomicity — when fetching the listing page
fails, the run discovers no records and the sequence of records in the
collection file is unchanged (the file is rewritten with exactly the records
it already parsed to). -/
theorem listing_failure_atomic (env : Env) (file : Option (List Record))
    (limit : Option Int) (h : env.listing = none) :
    (runCollector env file limit).2 = [] ∧
    parseFile (runCollector env file limit).1 = parseFile file := by
  simp [runCollector, scrape_all_papers, h, save_to_json, parseFile]

theorem listing_failure_atomic_witness :
    (runCollector envDown (some []) none).2 = [] ∧
    parseFile (runCollector envDown (some []) none).1 = parseFile (some ([] : List Record)) :=
  listing_failure_atomic envDown (some []) none rfl

/-- C5 (corrected): the retry/backoff contract of `get_page` — at most 3
attempts, each with the fixed 30-second timeout; after failed non-final
attempt i the loop sleeps 2^i seconds, so the delays actually slept are
1s and then 2s (never 4s); if the first two attempts fail the result is
whatever the third attempt returns (the successful response, or `None` after
three failures — a value, not an escaping exception). -/
theorem get_page_retry_contract {α : Type} (oracle : Nat → Option α) :
    (get_page oracle).timeouts.length ≤ 3 ∧
    (get_page oracle).timeouts =
      List.replicate (get_page oracle).timeouts.length requestTimeout ∧
    requestTimeout = 30 ∧
    (get_page oracle).sleeps =
      (List.range ((get_page oracle).timeouts.length - 1)).map (fun i => 2 ^ i) ∧
    ((oracle 0).isSome → (get_page oracle).result = oracle 0) ∧
    (oracle 0 = none → (oracle 1).isSome → (get_page oracle).result = oracle 1) ∧
    (oracle 0 = none → oracle 1 = none → (get_page oracle).result = oracle 2) := by
  rcases h0 : oracle 0 with _ | r0 <;> rcases h1 : oracle 1 with _ | r1 <;>
    rcases h2 : oracle 2 with _ | r2 <;>
      simp [get_page, getPageLoop, h0, h1, h2, max_retries, requestTimeout,
        List.range_succ]

theorem get_page_retry_contract_witness :
    (get_page oracleThird).result = some 7 := by
  have h := (get_page_retry_contract oracleThird).2.2.2.2.2.2 rfl rfl
  simpa [oracleThird] using h

/-- C5 counterexample to the claim as stated: on a fetch that fails all three
attempts, the backoff sleeps performed are exactly [1, 2] seconds — the
claimed schedule 1s/2s/4s never occurs, because no sleep follows the final
attempt. -/
theorem get_page_backoff_cex :
    (get_page oracleAllFail).timeouts.length = 3 ∧
    (get_page oracleAllFail).sleeps = [1, 2] ∧
    (get_page oracleAllFail).sleeps ≠ [1, 2, 4] := by
  decide

/-- C6: fallback entry — when the text-generation call fails for a record,
`convert_to_bibtex` returns the deterministic fallback entry, which is a
fixed template over exactly the record's `volume_id`, `paper_id` and `url`
(key `volume_id_paper_id`, placeholder title/journal/year, the URL as the
only externally-verifiable field, and no other bibliographic data); it is
determined by those three fields alone, and the batch never aborts: every
processed record yields an entry. -/
theorem fallback_deterministic (api : Record → Option String) (r : Record)
    (h : api r = none) :
    convert_to_bibtex api r = fallback_entry r ∧
    fallback_entry r =
      "@article\x7b" ++ r.volume_id ++ "_" ++ r.paper_id ++
        ",\n  title = \x7bPaper from TAC Volume " ++ r.volume_id ++ ", Number " ++
        r.paper_id ++
        "\x7d,\n  journal = \x7bTheory and Applications of Categories\x7d,\n  volume = \x7b" ++
        r.volume_id ++ "\x7d,\n  number = \x7b" ++ r.paper_id ++
        "\x7d,\n  year = \x7b[n.d.]\x7d,\n  url = \x7b" ++ r.url ++ "\x7d\n\x7d" ∧
    (∀ r' : Record, r'.volume_id = r.volume_id → r'.paper_id = r.paper_id →
      r'.url = r.url → fallback_entry r' = fallback_entry r) ∧
    (∀ (papers : List Record) (limit : Option Int),
      (process_papers api papers limit).length = (pyTruncate limit papers).length) := by
  refine ⟨by simp [convert_to_bibtex, h], rfl, ?_, ?_⟩
  · intro r' hv hp hu
    simp [fallback_entry, hv, hp, hu]
  · intro papers limit
    simp [process_papers]

theorem fallback_deterministic_witness :
    convert_to_bibtex apiFail sampleRecord = fallback_entry sampleRecord :=
  (fallback_deterministic apiFail sampleRecord rfl).1

/-- C4 (corrected): the link filter keeps an href exactly when it starts with
the string "volumes", ends with "abs.html", and some anchor with that href
has stripped text "abstract" — there is no `volumes/<int>/<int>/...`
path-shape or depth validation. -/
theorem link_filter_amended (anchors : List (String × String)) (href : String) :
    href ∈ extract_paper_links anchors ↔
      ∃ t, (href, t) ∈ anchors ∧ strStarts "volumes" href = true ∧
        strEnds "abs.html" href = true ∧ t = "abstract" := by
  simp only [extract_paper_links, List.mem_dedup, List.mem_filterMap,
    Option.ite_none_right_eq_some, Option.some.injEq, Bool.and_eq_true, beq_iff_eq]
  constructor
  · rintro ⟨⟨h, t⟩, hmem, ⟨⟨h1, h2⟩, h3⟩, rfl⟩
    exact ⟨t, hmem, h1, h2, h3⟩
  · rintro ⟨t, hmem, h1, h2, h3⟩
    exact ⟨(href, t), hmem, ⟨⟨h1, h2⟩, h3⟩, rfl⟩

theorem link_filter_amended_witness :
    "volumes/7/3/x-abs.html" ∈ extract_paper_links [("volumes/7/3/x-abs.html", "abstract")] :=
  (link_filter_amended _ _).mpr ⟨"abstract", by simp, by decide, by decide, rfl⟩

/-- C4 counterexample to the claim as stated: the href "volumesabs.html"
(which does not lie under any `volumes/<int>/<int>/...` path shape) is
extracted as a candidate, because the code only tests the literal prefix
"volumes" and suffix "abs.html". -/
theorem link_filter_cex :
    "volumesabs.html" ∈ extract_paper_links [("volumesabs.html", "abstract")] ∧
    specVolumesShape "volumesabs.html" = false := by
  decide

/-- The fetch counter counts exactly the links whose resolved URL is not in
the known set. -/
theorem scrapeLinks_fetched (env : Env) (ex : List String) (ls : List String) :
    (scrapeLinks env ex ls).fetched =
      ls.countP (fun l => !decide (env.join env.base_url l ∈ ex)) := by
  induction ls with
  | nil => simp [scrapeLinks]
  | cons l ls ih =>
    by_cases h : env.join env.base_url l ∈ ex
    · simp [scrapeLinks, h, ih, List.countP_cons]
    · cases hf : env.fetchDetail (env.join env.base_url l) <;>
        simp [scrapeLinks, h, hf, ih, List.countP_cons]

/-- C7: with a positive limit n, the Collector truncates the deduplicated
candidate list to its first n entries before the already-known skip filter
runs; the number of detail pages fetched is the number of those first n
candidates whose resolved URL is new, which is at most n. -/
theorem limit_truncation (env : Env) (anchors : List (String × String))
    (existing : List String) (n : Int) (hl : env.listing = some anchors)
    (hn : 0 < n) :
    scrape_all_papers env existing (some n) =
      scrapeLinks env existing ((extract_paper_links anchors).take n.toNat) ∧
    (scrape_all_papers env existing (some n)).fetched =
      ((extract_paper_links anchors).take n.toNat).countP
        (fun l => !decide (env.join env.base_url l ∈ existing)) ∧
    (scrape_all_papers env existing (some n)).fetched ≤ n.toNat := by
  have hcand : candidate_links env (some n) =
      (extract_paper_links anchors).take n.toNat := by
    simp [candidate_links, hl, pyTruncate, pySlice, hn.ne', hn.le]
  have hscrape : scrape_all_papers env existing (some n) =
      scrapeLinks env existing ((extract_paper_links anchors).take n.toNat) := by
    simp [scrape_all_papers, hl, hcand]
  refine ⟨hscrape, ?_, ?_⟩
  · rw [hscrape, scrapeLinks_fetched]
  · rw [hscrape, scrapeLinks_fetched]
    exact le_trans (List.countP_le_length _) (List.length_take_le _ _)

theorem limit_truncation_witness :
    (scrape_all_papers env50 [] (some 10)).fetched = 10 := by
  have h := (limit_truncation env50 anchors50 [] 10 rfl (by decide)).2.1
  rw [h]
  decide

/-- Every record produced by the scrape loop carries a resolved URL of one of
the processed links, and that URL was not in the known set. -/
theorem scrapeLinks_papers_mem (env : Env) (ex : List String) (ls : List String)
    (r : Record) (hr : r ∈ (scrapeLinks env ex ls).papers) :
    r.url ∉ ex ∧ ∃ l ∈ ls, r.url = env.join env.base_url l := by
  induction ls with
  | nil => simp [scrapeLinks] at hr
  | cons l ls ih =>
    by_cases h : env.join env.base_url l ∈ ex
    · simp only [scrapeLinks, if_pos h] at hr
      obtain ⟨hnot, l', hl', heq⟩ := ih hr
      exact ⟨hnot, l', List.mem_cons_of_mem _ hl', heq⟩
    · cases hf : env.fetchDetail (env.join env.base_url l) with
      | none =>
        simp only [scrapeLinks, if_neg h, hf] at hr
        obtain ⟨hnot, l', hl', heq⟩ := ih hr
        exact ⟨hnot, l', List.mem_cons_of_mem _ hl', heq⟩
      | some html =>
        simp only [scrapeLinks, if_neg h, hf, List.mem_cons] at hr
        rcases hr with hr | hr
        · subst hr
          exact ⟨h, l, List.mem_cons_self _ _, rfl⟩
        · obtain ⟨hnot, l', hl', heq⟩ := ih hr
          exact ⟨hnot, l', List.mem_cons_of_mem _ hl', heq⟩

/-- If the resolved URL of every processed link is already known, the scrape
loop skips them all and produces no records. -/
theorem scrapeLinks_all_known (env : Env) (ex : List String) (ls : List String)
    (h : ∀ l ∈ ls, env.join env.base_url l ∈ ex) :
    scrapeLinks env ex ls = ⟨[], ls.length, 0⟩ := by
  induction ls with
  | nil => simp [scrapeLinks]
  | cons l ls ih =>
    have hl : env.join env.base_url l ∈ ex := h l (List.mem_cons_self _ _)
    have ih' := ih fun x hx => h x (List.mem_cons_of_mem _ hx)
    simp [scrapeLinks, hl, ih']

/-- When the processed links are pairwise distinct and URL resolution is
injective on them, the produced records have pairwise distinct URLs. -/
theorem scrapeLinks_urls_nodup (env : Env) (ex : List String) (ls : List String)
    (hnd : ls.Nodup)
    (hinj : ∀ l ∈ ls, ∀ l' ∈ ls,
      env.join env.base_url l = env.join env.base_url l' → l = l') :
    ((scrapeLinks env ex ls).papers.map Record.url).Nodup := by
  induction ls with
  | nil => simp [scrapeLinks]
  | cons l ls ih =>
    have hnotmem : l ∉ ls := (List.nodup_cons.mp hnd).1
    have hnd' : ls.Nodup := (List.nodup_cons.mp hnd).2
    have hinj' : ∀ l1 ∈ ls, ∀ l2 ∈ ls,
        env.join env.base_url l1 = env.join env.base_url l2 → l1 = l2 :=
      fun l1 h1 l2 h2 =>
        hinj l1 (List.mem_cons_of_mem _ h1) l2 (List.mem_cons_of_mem _ h2)
    by_cases h : env.join env.base_url l ∈ ex
    · simp only [scrapeLinks, if_pos h]
      exact ih hnd' hinj'
    · cases hf : env.fetchDetail (env.join env.base_url l) with
      | none =>
        simp only [scrapeLinks, if_neg h, hf]
        exact ih hnd' hinj'
      | some html =>
        simp only [scrapeLinks, if_neg h, hf, List.map_cons]
        rw [List.nodup_cons]
        refine ⟨?_, ih hnd' hinj'⟩
        intro hmem
        obtain ⟨r, hr, hru⟩ := List.mem_map.mp hmem
        obtain ⟨_, l', hl', heq⟩ := scrapeLinks_papers_mem env ex ls r hr
        have : l = l' :=
          hinj l (List.mem_cons_self _ _) l' (List.mem_cons_of_mem _ hl')
            (hru.symm.trans heq)
        exact hnotmem (this ▸ hl')

/-- The limit truncation yields a sublist of the candidate list. -/
theorem pyTruncate_sublist (limit : Option Int) (xs : List α) :
    (pyTruncate limit xs).Sublist xs := by
  cases limit with
  | none => exact List.Sublist.refl xs
  | some n =>
    simp only [pyTruncate]
    split
    · exact List.Sublist.refl xs
    · simp only [pySlice]
      split <;> exact List.take_sublist _ _

/-- C2 (amended): after a Collector run the persisted records have pairwise
distinct URLs, provided that the initial file has pairwise distinct URLs and
that distinct candidate hrefs resolve to distinct absolute URLs.  (Without
the injectivity proviso the invariant fails, see the counterexample: the
known-URL set is loaded once at startup and never updated inside the loop.) -/
theorem dedup_invariant (env : Env) (file : Option (List Record))
    (limit : Option Int)
    (hfile : ((parseFile file).map Record.url).Nodup)
    (hinj : ∀ l ∈ candidate_links env limit, ∀ l' ∈ candidate_links env limit,
      env.join env.base_url l = env.join env.base_url l' → l = l') :
    ((parseFile (runCollector env file limit).1).map Record.url).Nodup := by
  cases hl : env.listing with
  | none =>
    simpa [runCollector, scrape_all_papers, hl, save_to_json, parseFile] using hfile
  | some anchors =>
    have hcand_nd : (candidate_links env limit).Nodup := by
      have hdd : (extract_paper_links anchors).Nodup := List.nodup_dedup _
      have hsub : (candidate_links env limit).Sublist (extract_paper_links anchors) := by
        simp only [candidate_links, hl]
        exact pyTruncate_sublist _ _
      exact hdd.sublist hsub
    have hnew : ((scrapeLinks env (load_existing_papers file)
        (candidate_links env limit)).papers.map Record.url).Nodup :=
      scrapeLinks_urls_nodup env _ _ hcand_nd hinj
    have hscr : scrape_all_papers env (load_existing_papers file) limit =
        scrapeLinks env (load_existing_papers file) (candidate_links env limit) := by
      simp [scrape_all_papers, hl]
    show ((parseFile (save_to_json file
      (scrape_all_papers env (load_existing_papers file) limit).papers)).map
        Record.url).Nodup
    rw [hscr]
    simp only [save_to_json, parseFile, Option.getD_some, List.map_append]
    rw [List.nodup_append]
    refine ⟨hfile, hnew, ?_⟩
    intro a ha hb
    obtain ⟨r, hr, hru⟩ := List.mem_map.mp hb
    obtain ⟨hnot, _, _, _⟩ :=
      scrapeLinks_papers_mem env (load_existing_papers file) _ r hr
    rw [hru] at hnot
    exact hnot ha

theorem dedup_invariant_witness :
    ((parseFile (runCollector envPlain (some []) none).1).map Record.url).Nodup :=
  dedup_invariant envPlain (some []) none (by decide) (by decide)

/-- C2 counterexample to the claim as stated: starting from an empty file
(trivially pairwise distinct) and a listing whose two distinct hrefs resolve
to the same absolute URL, one run persists two records with identical `url`,
because the known-URL set is never updated during the loop. -/
theorem dedup_invariant_cex :
    ((parseFile (some ([] : List Record))).map Record.url).Nodup ∧
    ¬ ((parseFile (runCollector envAlias (some []) none).1).map Record.url).Nodup := by
  decide

/-- C1: Collector idempotence — with the remote content unchanged and every
candidate URL already present in the collection file after the first run, a
second run adds no records and leaves the file state exactly as the first
run left it. -/
theorem collector_idempotent (env : Env) (file : Option (List Record))
    (limit : Option Int)
    (h : ∀ l ∈ candidate_links env limit,
      env.join env.base_url l ∈ load_existing_papers (runCollector env file limit).1) :
    (runCollector env (runCollector env file limit).1 limit).1 =
      (runCollector env file limit).1 ∧
    (runCollector env (runCollector env file limit).1 limit).2 = [] := by
  have hfile1 : (runCollector env file limit).1 =
      some (parseFile file ++
        (scrape_all_papers env (load_existing_papers file) limit).papers) := rfl
  have hp2 : (scrape_all_papers env
      (load_existing_papers (runCollector env file limit).1) limit).papers = [] := by
    cases hl : env.listing with
    | none => simp [scrape_all_papers, hl]
    | some anchors =>
      simp only [scrape_all_papers, hl]
      rw [scrapeLinks_all_known env _ _ h]
  constructor
  · show save_to_json (runCollector env file limit).1
      (scrape_all_papers env
        (load_existing_papers (runCollector env file limit).1) limit).papers =
      (runCollector env file limit).1
    rw [hp2, hfile1]
    simp [save_to_json, parseFile]
  · exact hp2

theorem collector_idempotent_witness :
    (runCollector envKnown (runCollector envKnown (some []) none).1 none).1 =
      (runCollector envKnown (some []) none).1 :=
  (collector_idempotent envKnown (some []) none (by decide)).1

/-- A successful prefix test decomposes the list. -/
theorem listStarts_decomp (ps cs : List Char) (h : listStarts ps cs = true) :
    ∃ rest, cs = ps ++ rest := by
  induction ps generalizing cs with
  | nil => exact ⟨cs, rfl⟩
  | cons p ps ih =>
    cases cs with
    | nil => simp [listStarts] at h
    | cons c cs =>
      simp only [listStarts, Bool.and_eq_true, beq_iff_eq] at h
      obtain ⟨rest, hrest⟩ := ih cs h.2
      exact ⟨rest, by simp [h.1, hrest]⟩

/-- `takeDigits` splits its input. -/
theorem takeDigits_append (cs : List Char) :
    (takeDigits cs).1 ++ (takeDigits cs).2 = cs := by
  induction cs with
  | nil => rfl
  | cons c cs ih =>
    by_cases h : c.isDigit
    · simp [takeDigits, h, ih]
    · simp [takeDigits, h]

/-- The first component of `takeDigits` holds only digits. -/
theorem takeDigits_digits (cs : List Char) :
    ∀ x ∈ (takeDigits cs).1, x.isDigit = true := by
  induction cs with
  | nil => simp [takeDigits]
  | cons c cs ih =>
    by_cases h : c.isDigit
    · intro x hx
      simp only [takeDigits, if_pos h] at hx
      rcases List.mem_cons.mp hx with rfl | hx
      · exact h
      · exact ih x hx
    · intro x hx
      simp [takeDigits, h] at hx

/-- Soundness of the anchored matcher: a match at the head of the list means
the list literally starts with a `volumes/<digits>/<digits>/<non-slash>`
section. -/
theorem matchShapeAt_sound (cs : List Char) (v p : String)
    (h : matchShapeAt cs = some (v, p)) :
    ∃ d1 d2 c post,
      cs = volumesMarker ++ d1 ++ '/' :: (d2 ++ '/' :: c :: post) ∧
      d1 ≠ [] ∧ d2 ≠ [] ∧ (∀ x ∈ d1, x.isDigit = true) ∧
      (∀ x ∈ d2, x.isDigit = true) ∧ c ≠ '/' := by
  unfold matchShapeAt at h
  split at h
  case isFalse => exact absurd h (by simp)
  case isTrue hstart =>
    obtain ⟨rest, hrest⟩ := listStarts_decomp _ _ hstart
    have hdrop : cs.drop 8 = rest := by
      rw [hrest]
      exact List.drop_left' (by rfl)
    split at h
    case h_2 => exact absurd h (by simp)
    case h_1 d1 r2 heq1 =>
      split at h
      case isTrue => exact absurd h (by simp)
      case isFalse hd1 =>
        split at h
        case h_2 => exact absurd h (by simp)
        case h_1 d2 c rest2 heq2 =>
          split at h
          case isTrue => exact absurd h (by simp)
          case isFalse hd2 =>
            split at h
            case isTrue => exact absurd h (by simp)
            case isFalse hc =>
              have hr2 : d2 ++ '/' :: c :: rest2 = r2 := by
                have := takeDigits_append r2
                rw [heq2] at this
                exact this
              have hrest2 : d1 ++ '/' :: r2 = rest := by
                have := takeDigits_append (cs.drop 8)
                rw [heq1, hdrop] at this
                exact this
              refine ⟨d1, d2, c, rest2, ?_, hd1, hd2, ?_, ?_, hc⟩
              · rw [hrest, ← hrest2, ← hr2]
                simp
              · have := takeDigits_digits (cs.drop 8)
                rw [heq1] at this
                exact this
              · have := takeDigits_digits r2
                rw [heq2] at this
                exact this

/-- Soundness of the scan: if `re.search` finds the pattern, the URL contains
a `volumes/<digits>/<digits>/<non-slash>` section. -/
theorem searchVolPaper_sound (s : List Char) (v p : String)
    (h : searchVolPaper s = some (v, p)) : shapeIn s := by
  induction s with
  | nil => simp [searchVolPaper] at h
  | cons c cs ih =>
    cases hm : matchShapeAt (c :: cs) with
    | some r =>
      simp only [searchVolPaper, hm] at h
      obtain rfl : r = (v, p) := by injection h
      obtain ⟨d1, d2, cc, post, heq, h1, h2, h3, h4, h5⟩ :=
        matchShapeAt_sound _ _ _ hm
      exact ⟨[], d1, d2, cc, post, by simpa using heq, h1, h2, h3, h4, h5⟩
    | none =>
      simp only [searchVolPaper, hm] at h
      obtain ⟨pre, d1, d2, cc, post, heq, h1, h2, h3, h4, h5⟩ := ih h
      exact ⟨c :: pre, d1, d2, cc, post, by simp [heq], h1, h2, h3, h4, h5⟩

/-- C8: record extraction — on the sample detail URL the extracted record has
`volume_id = "7"` and `paper_id = "3"`; on any URL containing no
`volumes/<int>/<int>/<segment>` section both fields are the empty string, and
in every case extraction totally produces a well-formed record that keeps the
input URL and extracted text. -/
theorem record_extraction (g : String → String) (url html : String)
    (h : ¬ shapeIn url.toList) :
    extract_paper_info g url html = ⟨url, "", "", g html⟩ ∧
    extract_paper_info g "http://www.tac.mta.ca/tac/volumes/7/3/7-03abs.html" html =
      ⟨"http://www.tac.mta.ca/tac/volumes/7/3/7-03abs.html", "7", "3", g html⟩ := by
  constructor
  · cases hs : searchVolPaper url.toList with
    | none =>
      show (⟨url, ((searchVolPaper url.toList).getD ("", "")).1,
        ((searchVolPaper url.toList).getD ("", "")).2, g html⟩ : Record) = _
      rw [hs]
      rfl
    | some r =>
      rcases r with ⟨v, p⟩
      exact absurd (searchVolPaper_sound _ v p hs) h
  · rfl

theorem record_extraction_witness :
    extract_paper_info (fun s => s) "x" "h" = ⟨"x", "", "", "h"⟩ := by
  refine (record_extraction (fun s => s) "x" "h" ?_).1
  rintro ⟨pre, d1, d2, c, post, heq, hd1, hd2, _, _, _⟩
  have hlen := congrArg List.length heq
  have h1 : 1 ≤ d1.length := List.length_pos.mpr hd1
  simp [volumesMarker, List.length_append] at hlen
  omega

end TAC
